import Mathlib

/-!
Shallow embedding of the procedural city generation core of the
`city-of-wires` repository (`src/CityGenerator.cpp`, `src/CityGenerator.hpp`).

Modelling conventions:
* `float` values are modelled as exact rationals (`ℚ`).
* The Mersenne-twister engine together with the three `uniform_real_distribution`
  members (all uniform on `[0,1)` and all drawing from the single engine `rng_`)
  is modelled abstractly: an environment provides `unif : Int → Nat → ℚ`, the
  value of the n-th uniform draw after the engine was last seeded with a given
  seed.  `rng_.seed(s)` resets the draw counter.
* `std::exp` and `std::sqrt` are modelled as abstract functions `rexp`, `rsqrt`
  of the environment; theorems that need their analytic properties take them as
  hypotheses.
* C++ `int` arithmetic (with wrap-around on overflow) is modelled by explicit
  two's-complement wrapping on `Int`.
* The mutable generator state (`buildings_`, `neonLights_`, `lightVolumes_`,
  `chunkData_`) is modelled by explicit state passing on a `GenState` record;
  `std::map<std::pair<int,int>, ChunkData>` is modelled as an association list.
-/

set_option maxRecDepth 4000

attribute [local semireducible] Rat.add Rat.mul Rat.sub Rat.inv

namespace CityGen

/-- `glm::vec3` with exact rational components. -/
structure Vec3 where
  x : ℚ
  y : ℚ
  z : ℚ
deriving DecidableEq, Repr

/-- `glm::vec2` with exact rational components. -/
structure Vec2 where
  x : ℚ
  y : ℚ
deriving DecidableEq, Repr

/-- Componentwise scaling of a `Vec3` (used for `color * scalar`). -/
def Vec3.smul (c : ℚ) (v : Vec3) : Vec3 :=
  ⟨c * v.x, c * v.y, c * v.z⟩

/-- `struct BuildingPart` of `CityGenerator.hpp`. -/
structure BuildingPart where
  position : Vec3
  size : Vec3
  color : Vec3
  detailLevel : Int
deriving DecidableEq, Repr

/-- `struct Building` of `CityGenerator.hpp` (the unused `neonLights`
member of the struct is omitted: the source never writes or reads it). -/
structure Building where
  position : Vec3
  size : Vec3
  color : Vec3
  parts : List BuildingPart
  heightVariation : ℚ
  hasAntenna : Bool
deriving DecidableEq, Repr

/-- `struct NeonLight` of `CityGenerator.hpp`. -/
structure NeonLight where
  position : Vec3
  color : Vec3
  intensity : ℚ
  radius : ℚ
  width : ℚ
  height : ℚ
  face : Int
deriving DecidableEq, Repr

/-- `struct LightVolume` of `CityGenerator.hpp`. -/
structure LightVolume where
  basePosition : Vec3
  height : ℚ
  baseRadius : ℚ
  color : Vec3
  intensity : ℚ
  isCone : Bool
deriving DecidableEq, Repr

/-- `struct ChunkData` of `CityGenerator.hpp`. -/
structure ChunkData where
  buildingIndices : List Nat
  neonIndices : List Nat
  lightVolumeIndices : List Nat
deriving DecidableEq, Repr

/-- The state of the random engine: the seed it was last seeded with and how
many uniform draws were consumed since. -/
structure Rng where
  seed : Int
  counter : Nat
deriving DecidableEq, Repr

/-- The abstract primitives of the execution environment: the uniform `[0,1)`
draw stream of the seeded engine, and the `std::exp` / `std::sqrt` library
functions. -/
structure Env where
  unif : Int → Nat → ℚ
  rexp : ℚ → ℚ
  rsqrt : ℚ → ℚ

/-- One call of a `uniform_real_distribution` member on the engine `rng_`. -/
def draw (env : Env) (r : Rng) : ℚ × Rng :=
  (env.unif r.seed r.counter, { r with counter := r.counter + 1 })

/-- The configuration members of `CityGenerator` and the ground-light part of
`g_volumetricConfig` that the generation core reads. -/
structure Config where
  buildingDensity : ℚ
  maxHeight : ℚ
  minHeight : ℚ
  heightDistributionLambda : ℚ
  chunkSize : ℚ
  groundLightAttempts : Nat
  groundLightMaxCount : Nat
  groundLightMinClearance : ℚ
  groundLightMinHeight : ℚ
  groundLightMaxHeight : ℚ
  groundLightMinSize : ℚ
  groundLightMaxSize : ℚ
  groundLightMinIntensity : ℚ
  groundLightMaxIntensity : ℚ
deriving DecidableEq, Repr

/-- The default values of those members in the source. -/
def defaultConfig : Config where
  buildingDensity := 7/10
  maxHeight := 50
  minHeight := 10
  heightDistributionLambda := 2
  chunkSize := 50
  groundLightAttempts := 100
  groundLightMaxCount := 20
  groundLightMinClearance := 15
  groundLightMinHeight := 3
  groundLightMaxHeight := 8
  groundLightMinSize := 3
  groundLightMaxSize := 7
  groundLightMinIntensity := 8
  groundLightMaxIntensity := 20

/-- The mutable state of a `CityGenerator` instance. -/
structure GenState where
  rng : Rng
  buildings : List Building
  neonLights : List NeonLight
  lightVolumes : List LightVolume
  chunkData : List ((Int × Int) × ChunkData)
deriving DecidableEq, Repr

/-- A freshly constructed generator (`CityGenerator::CityGenerator`,
which seeds the engine with 42 and leaves every container empty). -/
def initState : GenState where
  rng := ⟨42, 0⟩
  buildings := []
  neonLights := []
  lightVolumes := []
  chunkData := []

/-- Two's-complement wrap of an integer to the range of a 32-bit `int`. -/
def wrap32 (n : Int) : Int :=
  (n + 2147483648) % 4294967296 - 2147483648

/-- The unsigned 32-bit pattern of an integer. -/
def toU32 (n : Int) : Nat :=
  (n % 4294967296).toNat

/-- Bitwise xor of two C++ `int` values. -/
def xor32 (a b : Int) : Int :=
  wrap32 (Int.ofNat (Nat.xor (toU32 a) (toU32 b)))

/-- The chunk-seed computation of `CityGenerator::generateChunk`
(lines 47–49): `chunkSeed = baseSeed * 73856093 ^ chunkX * 19349663;
chunkSeed = chunkSeed ^ chunkZ * 83492791;` with C++ `int` semantics. -/
def chunkSeedOf (baseSeed chunkX chunkZ : Int) : Int :=
  let s1 := xor32 (wrap32 (baseSeed * 73856093)) (wrap32 (chunkX * 19349663))
  xor32 s1 (wrap32 (chunkZ * 83492791))

/-- `CityGenerator::generateHeight` (lines 317–343).  The `baseHeight`
argument of the source is unused there and omitted here. -/
def generateHeight (env : Env) (cfg : Config) (r : Rng) : ℚ × Rng :=
  let (u1, r1) := draw env r
  let heightFactor := env.rexp (-cfg.heightDistributionLambda * u1)
  let (u2, r2) := draw env r1
  let (u3, r3) := draw env r2
  let distanceFromCenter := env.rsqrt ((u2 - 1/2) ^ 2 + (u3 - 1/2) ^ 2)
  let centerBias := 1 - distanceFromCenter * (3/10)
  let heightFactor2 := heightFactor * centerBias
  let heightFactor3 := min heightFactor2 1
  (cfg.minHeight + heightFactor3 * (cfg.maxHeight - cfg.minHeight), r3)

/-- `CityGenerator::generateBuildingColor` (lines 303–315). -/
def generateBuildingColor (env : Env) (r : Rng) : Vec3 × Rng :=
  let (u1, r1) := draw env r
  let baseGray := 1/10 + u1 * (2/10)
  let (tint, r2) := draw env r1
  if tint < 3/10 then (⟨baseGray, baseGray * (8/10), baseGray * (6/10)⟩, r2)
  else if tint < 6/10 then (⟨baseGray * (7/10), baseGray, baseGray * (8/10)⟩, r2)
  else (⟨baseGray * (8/10), baseGray * (8/10), baseGray⟩, r2)

/-- The `for (i = 0; i < numBranchPairs; ++i)` loop of `generateBranches`
(lines 377–379): iterate a branch-pair attachment `f` a given number of
times. -/
def pairsIter (f : Building → Rng → Building × Rng) :
    Nat → Building → Rng → Building × Rng
  | 0, b, r => (b, r)
  | n + 1, b, r =>
    let br := f b r
    pairsIter f n br.1 br.2

/-- The body of `CityGenerator::addSymmetricBranches` (lines 382–516),
parametrized by the recursive call `recurse d b parent r` standing for
`generateBranches(building, parent, 2, d)` (lines 433–434, 474–475,
512–513). -/
def addSymBody (env : Env)
    (recurse : Int → Building → BuildingPart → Rng → Building × Rng)
    (detail : Int) (b : Building) (parent : BuildingPart) (r : Rng) :
    Building × Rng :=
  let (directionChoice, r1) := draw env r
  let (u1, r2) := draw env r1
  let sizeScale := 3/10 + u1 * (4/10)
  let (u2, r3) := draw env r2
  let attachmentHeight := 3/10 + u2 * (5/10)
  let (u3, r4) := draw env r3
  let extendAmount := 4/10 + u3 * (6/10)
  if directionChoice < 33/100 then
    -- Front/Back branches (along Z axis)
    let branchWidth := parent.size.x * sizeScale
    let branchHeight := parent.size.y * sizeScale
    let branchDepth := parent.size.z * extendAmount
    let attachY := parent.position.y + parent.size.y * attachmentHeight
    let (u4, r5) := draw env r4
    let attachX := (u4 - 1/2) * parent.size.x * (6/10)
    let (u5, r6) := draw env r5
    let frontBranch : BuildingPart :=
      { position := ⟨parent.position.x + attachX,
                     attachY - branchHeight * (1/2),
                     parent.position.z + parent.size.z * (1/2) + branchDepth * (1/2)⟩
        size := ⟨branchWidth, branchHeight, branchDepth⟩
        color := Vec3.smul (9/10 + u5 * (2/10)) b.color
        detailLevel := detail }
    let backBranch : BuildingPart :=
      { position := ⟨parent.position.x - attachX,
                     attachY - branchHeight * (1/2),
                     parent.position.z - parent.size.z * (1/2) - branchDepth * (1/2)⟩
        size := frontBranch.size
        color := frontBranch.color
        detailLevel := detail }
    let b1 := { b with parts := b.parts ++ [frontBranch, backBranch] }
    if detail < 2 then
      let br2 := recurse detail b1 frontBranch r6
      recurse detail br2.1 backBranch br2.2
    else (b1, r6)
  else if directionChoice < 66/100 then
    -- Left/Right branches (along X axis)
    let branchWidth := parent.size.x * extendAmount
    let branchHeight := parent.size.y * sizeScale
    let branchDepth := parent.size.z * sizeScale
    let attachY := parent.position.y + parent.size.y * attachmentHeight
    let (u4, r5) := draw env r4
    let attachZ := (u4 - 1/2) * parent.size.z * (6/10)
    let (u5, r6) := draw env r5
    let rightBranch : BuildingPart :=
      { position := ⟨parent.position.x + parent.size.x * (1/2) + branchWidth * (1/2),
                     attachY - branchHeight * (1/2),
                     parent.position.z + attachZ⟩
        size := ⟨branchWidth, branchHeight, branchDepth⟩
        color := Vec3.smul (9/10 + u5 * (2/10)) b.color
        detailLevel := detail }
    let leftBranch : BuildingPart :=
      { position := ⟨parent.position.x - parent.size.x * (1/2) - branchWidth * (1/2),
                     attachY - branchHeight * (1/2),
                     parent.position.z - attachZ⟩
        size := rightBranch.size
        color := rightBranch.color
        detailLevel := detail }
    let b1 := { b with parts := b.parts ++ [rightBranch, leftBranch] }
    if detail < 2 then
      let br2 := recurse detail b1 rightBranch r6
      recurse detail br2.1 leftBranch br2.2
    else (b1, r6)
  else
    -- Top branches (vertical extensions)
    let (u4, r5) := draw env r4
    let branchWidth := parent.size.x * (7/10 + u4 * (3/10))
    let branchHeight := parent.size.y * sizeScale
    let (u5, r6) := draw env r5
    let branchDepth := parent.size.z * (7/10 + u5 * (3/10))
    let (u6, r7) := draw env r6
    let topLeftBranch : BuildingPart :=
      { position := ⟨parent.position.x - parent.size.x * (15/100),
                     parent.position.y + parent.size.y * (1/2) + branchHeight * (1/2),
                     parent.position.z + parent.size.z * (15/100)⟩
        size := ⟨branchWidth, branchHeight, branchDepth⟩
        color := Vec3.smul (9/10 + u6 * (2/10)) b.color
        detailLevel := detail }
    let topRightBranch : BuildingPart :=
      { position := ⟨parent.position.x + parent.size.x * (15/100),
                     parent.position.y + parent.size.y * (1/2) + branchHeight * (1/2),
                     parent.position.z - parent.size.z * (15/100)⟩
        size := topLeftBranch.size
        color := topLeftBranch.color
        detailLevel := detail }
    let b1 := { b with parts := b.parts ++ [topLeftBranch, topRightBranch] }
    if detail < 2 then
      let br2 := recurse detail b1 topLeftBranch r7
      recurse detail br2.1 topRightBranch br2.2
    else (b1, r7)

/-- The body of `CityGenerator::generateBranches` (lines 345–380),
parametrized by the symmetric-branch attachment `attach d b parent r`
standing for `addSymmetricBranches(building, parent, d)`. -/
def genBBody (env : Env)
    (attach : Int → Building → BuildingPart → Rng → Building × Rng)
    (maxDepth currentDepth : Int) (b : Building) (parent : BuildingPart)
    (r : Rng) : Building × Rng :=
  if currentDepth ≥ maxDepth then (b, r)
  else
    let (branchChance, r1) := draw env r
    let numBranchPairs : Nat :=
      if currentDepth = 0 then
        if branchChance < 3/10 then 0
        else if branchChance < 6/10 then 1
        else if branchChance < 85/100 then 2
        else 3
      else
        if branchChance < 6/10 then 0
        else if branchChance < 9/10 then 1
        else 2
    pairsIter (fun b' r' => attach (currentDepth + 1) b' parent r') numBranchPairs b r1

/-- The fuel-indexed family of the two mutually recursive branch functions of
the source: component 1 is `generateBranches`, component 2 is
`addSymmetricBranches`.  `fuel` bounds the remaining recursion depth (it is
a termination device: each nested `addSymmetricBranches →
generateBranches` step moves to the previous family member, and the call
in `mkBuilding` supplies fuel 2, which the source's `detailLevel < 2` /
`currentDepth >= maxDepth` cuts never exhaust). -/
def branchFns (env : Env) :
    Nat → (Int → Int → Building → BuildingPart → Rng → Building × Rng) ×
          (Int → Building → BuildingPart → Rng → Building × Rng)
  | 0 =>
    (fun _ _ b _ r => (b, r),
     fun detail b parent r =>
       addSymBody env (fun _ b' _ r' => (b', r')) detail b parent r)
  | fuel + 1 =>
    let prev := branchFns env fuel
    let attach : Int → Building → BuildingPart → Rng → Building × Rng :=
      fun detail b parent r =>
        addSymBody env (fun d b' p' r' => prev.1 2 d b' p' r') detail b parent r
    (fun maxDepth currentDepth b parent r =>
       genBBody env attach maxDepth currentDepth b parent r,
     attach)

/-- `CityGenerator::generateBranches` (lines 345–380) at a given fuel. -/
def generateBranches (env : Env) (fuel : Nat) (maxDepth currentDepth : Int)
    (b : Building) (parent : BuildingPart) (r : Rng) : Building × Rng :=
  (branchFns env fuel).1 maxDepth currentDepth b parent r

/-- `CityGenerator::addSymmetricBranches` (lines 382–516) at a given fuel. -/
def addSymmetricBranches (env : Env) (fuel : Nat) (detail : Int)
    (b : Building) (parent : BuildingPart) (r : Rng) : Building × Rng :=
  (branchFns env fuel).2 detail b parent r

/-- The value a `BuildingPart` read out of range would have; the source never
reads out of range (the index into `parts` is below its size). -/
def dummyPart : BuildingPart := ⟨⟨0, 0, 0⟩, ⟨0, 0, 0⟩, ⟨0, 0, 0⟩, 0⟩

/-- The base glyph size four-tier mixture of `addNeonLights`
(lines 217–227). -/
def neonBaseSize (sizeRoll us : ℚ) : ℚ :=
  if sizeRoll < 6/10 then 3/10 + us * (5/10)
  else if sizeRoll < 85/100 then 8/10 + us * (12/10)
  else if sizeRoll < 95/100 then 2 + us * 2
  else 4 + us * 4

/-- The clamp of the light's width/height to 80% of the wall dimensions
(lines 234–246): clamp the width first, rescaling the height, then the
height, rescaling the width. -/
def clampNeon (wallWidth wallHeight w0 h0 : ℚ) : ℚ × ℚ :=
  let maxWidth := wallWidth * (8/10)
  let maxHeight := wallHeight * (8/10)
  let wh1 := if w0 > maxWidth then (maxWidth, h0 * (maxWidth / w0)) else (w0, h0)
  if wh1.2 > maxHeight then (wh1.1 * (maxHeight / wh1.2), maxHeight) else wh1

/-- One iteration of the light loop of `CityGenerator::addNeonLights`
(lines 179–300).  Returns `none` without consuming draws when the building has
no parts, mirroring the `continue` at line 183. -/
def mkNeonLight (env : Env) (b : Building) (r : Rng) : Option NeonLight × Rng :=
  if b.parts = [] then (none, r)
  else
    let (upart, r1) := draw env r
    let part := b.parts.getD (⌊upart * b.parts.length⌋).toNat dummyPart
    let partAbsPos : Vec3 :=
      ⟨b.position.x + part.position.x, b.position.y + part.position.y,
       b.position.z + part.position.z⟩
    let (side, r2) := draw env r1
    let offset : ℚ := 1/20
    let face : Int := if side < 1/4 then 0 else if side < 1/2 then 1
                      else if side < 3/4 then 2 else 3
    let wallWidth := if side < 1/2 then part.size.x else part.size.z
    let wallHeight := part.size.y
    let (sizeRoll, r3) := draw env r2
    let (us, r4) := draw env r3
    let baseSize := neonBaseSize sizeRoll us
    let (ua, r5) := draw env r4
    let aspectRatio := 1/2 + ua * (3/2)
    let wh2 := clampNeon wallWidth wallHeight (baseSize * aspectRatio) baseSize
    let (ux, r6) := draw env r5
    let xOffset := (ux - 1/2) * (wallWidth - wh2.1)
    let (uy, r7) := draw env r6
    let yOffset := uy * (wallHeight - wh2.2) + wh2.2 * (1/2)
    let position : Vec3 :=
      if face = 0 then
        ⟨partAbsPos.x + xOffset, partAbsPos.y + yOffset,
         partAbsPos.z + part.size.z * (1/2) + offset⟩
      else if face = 1 then
        ⟨partAbsPos.x + xOffset, partAbsPos.y + yOffset,
         partAbsPos.z - part.size.z * (1/2) - offset⟩
      else if face = 2 then
        ⟨partAbsPos.x - part.size.x * (1/2) - offset, partAbsPos.y + yOffset,
         partAbsPos.z + xOffset⟩
      else
        ⟨partAbsPos.x + part.size.x * (1/2) + offset, partAbsPos.y + yOffset,
         partAbsPos.z + xOffset⟩
    let (colorChoice, r8) := draw env r7
    let color : Vec3 :=
      if colorChoice < 3/10 then ⟨1, 3/10, 1/10⟩
      else if colorChoice < 6/10 then ⟨1, 8/10, 2/10⟩
      else if colorChoice < 8/10 then ⟨2/10, 8/10, 1⟩
      else ⟨8/10, 2/10, 1⟩
    let (ui, r9) := draw env r8
    let intensity := 1/2 + ui * (3/2)
    let (ur, r10) := draw env r9
    let radius := 8 + ur * 12
    (some { position := position, color := color, intensity := intensity,
            radius := radius, width := wh2.1, height := wh2.2, face := face }, r10)

/-- The `for (i = 0; i < numLights; ++i)` loop of `addNeonLights`, collecting
the lights pushed onto `neonLights_` in order. -/
def neonLoop (env : Env) (b : Building) : Nat → Rng → List NeonLight × Rng
  | 0, r => ([], r)
  | n + 1, r =>
    let p := mkNeonLight env b r
    let rest := neonLoop env b n p.2
    (match p.1 with | some l => l :: rest.1 | none => rest.1, rest.2)

/-- `CityGenerator::addNeonLights` (lines 176–301) as the list of lights it
appends to the global `neonLights_` array, plus the advanced engine. -/
def addNeonLights (env : Env) (b : Building) (r : Rng) : List NeonLight × Rng :=
  let (u, r1) := draw env r
  let numLights := 2 + (⌊u * 8⌋).toNat
  neonLoop env b numLights r1

/-- The `Building` assembled by `CityGenerator::generateBuilding`
(lines 130–167): trunk construction plus branch recursion.  The subsequent
`addNeonLights` call is modelled separately, and `addLightVolumes` returns
immediately (`return;` at line 520) consuming no randomness. -/
def mkBuilding (env : Env) (cfg : Config) (gridPos : Vec2) (r : Rng) :
    Building × Rng :=
  let position : Vec3 := ⟨gridPos.x, 0, gridPos.y⟩
  let (u1, r1) := draw env r
  let baseWidth := 2 + u1 * 4
  let (u2, r2) := draw env r1
  let baseDepth := 2 + u2 * 4
  let (u3, r3) := draw env r2
  let wdr :=
    if u3 > 1/2 then
      let (u4, r4) := draw env r3
      (baseWidth * (3/2 + u4 * 2), baseDepth, r4)
    else
      let (u4, r4) := draw env r3
      (baseWidth, baseDepth * (3/2 + u4 * 2), r4)
  let hr := generateHeight env cfg wdr.2.2
  let size : Vec3 := ⟨wdr.1, hr.1, wdr.2.1⟩
  let cr := generateBuildingColor env hr.2
  let (uhv, r8) := draw env cr.2
  let heightVariation := uhv * (3/10)
  let (uant, r9) := draw env r8
  let hasAntenna := decide (uant > 7/10)
  let trunk : BuildingPart := ⟨⟨0, 0, 0⟩, size, cr.1, 0⟩
  let building : Building :=
    { position := position, size := size, color := cr.1, parts := [trunk],
      heightVariation := heightVariation, hasAntenna := hasAntenna }
  generateBranches env 2 2 0 building trunk r9

/-- The full `CityGenerator::generateBuilding` call (lines 130–174) on the
generator state: assemble the building, push its neon lights onto
`neonLights_`, run the disabled `addLightVolumes` (a no-op), and push the
building onto `buildings_`. -/
def generateBuilding (env : Env) (cfg : Config) (gridPos : Vec2)
    (s : GenState) : GenState :=
  let br := mkBuilding env cfg gridPos s.rng
  let lr := addNeonLights env br.1 br.2
  { s with rng := lr.2,
           neonLights := s.neonLights ++ lr.1,
           buildings := s.buildings ++ [br.1] }

/-- The traversal order of the 5×5 cell grid of `generateChunk`
(outer `x`, inner `z`, lines 68–69). -/
def chunkCells : List (Nat × Nat) :=
  (List.range 5).flatMap fun x => (List.range 5).map fun z => (x, z)

/-- One iteration of the cell loop of `generateChunk` (lines 68–94). -/
def chunkCellStep (env : Env) (cfg : Config) (chunkWorldX chunkWorldZ : ℚ)
    (cell : Nat × Nat) (s : GenState) : GenState :=
  let cellSize := cfg.chunkSize / 5
  if cell.1 = 2 ∧ cell.2 = 2 then
    let localX := ((cell.1 : ℚ) + 1/2) * cellSize
    let localZ := ((cell.2 : ℚ) + 1/2) * cellSize
    generateBuilding env cfg ⟨chunkWorldX + localX, chunkWorldZ + localZ⟩ s
  else
    let (u, r1) := draw env s.rng
    if u > cfg.buildingDensity then { s with rng := r1 }
    else
      let (ux, r2) := draw env r1
      let (uz, r3) := draw env r2
      let localX := ((cell.1 : ℚ) + 1/2) * cellSize + (ux - 1/2) * cellSize * (3/10)
      let localZ := ((cell.2 : ℚ) + 1/2) * cellSize + (uz - 1/2) * cellSize * (3/10)
      generateBuilding env cfg ⟨chunkWorldX + localX, chunkWorldZ + localZ⟩
        { s with rng := r3 }

/-- The cell loop of `generateChunk` over the grid cells. -/
def chunkCellsFold (env : Env) (cfg : Config) (cwx cwz : ℚ) :
    List (Nat × Nat) → GenState → GenState
  | [], s => s
  | c :: cs, s => chunkCellsFold env cfg cwx cwz cs (chunkCellStep env cfg cwx cwz c s)

/-- `FLT_MAX` as an exact rational. -/
def fltMax : ℚ := 2 ^ 128 - 2 ^ 104

/-- The city-bounds fold of `addCubeLightVolumes` (lines 570–577). -/
def cityBounds (bs : List Building) : Vec2 × Vec2 :=
  bs.foldl
    (fun bounds bld =>
      (⟨min bounds.1.x (bld.position.x - bld.size.x),
        min bounds.1.y (bld.position.z - bld.size.z)⟩,
       ⟨max bounds.2.x (bld.position.x + bld.size.x),
        max bounds.2.y (bld.position.z + bld.size.z)⟩))
    (⟨fltMax, fltMax⟩, ⟨-fltMax, -fltMax⟩)

/-- The clearance test of `addCubeLightVolumes` (lines 592–604): `true` when
some building blocks the candidate point. -/
def blockedAt (cfg : Config) (bs : List Building) (pos : Vec3) : Bool :=
  bs.any fun bld =>
    let dx := |pos.x - bld.position.x|
    let dz := |pos.z - bld.position.z|
    let clearanceX := dx - bld.size.x * (1/2)
    let clearanceZ := dz - bld.size.z * (1/2)
    decide (clearanceX < cfg.groundLightMinClearance ∧
            clearanceZ < cfg.groundLightMinClearance ∧ pos.y < bld.size.y)

/-- The attempt loop of `addCubeLightVolumes` (lines 583–647), recursing on
remaining attempts; `placed` counts accepted volumes. -/
def cubeLoop (env : Env) (cfg : Config) (bs : List Building) (minB maxB : Vec2) :
    Nat → Nat → Rng → List LightVolume → List LightVolume × Rng
  | 0, _, r, vols => (vols, r)
  | n + 1, placed, r, vols =>
    if placed < cfg.groundLightMaxCount then
      let (ux, r1) := draw env r
      let (uz, r2) := draw env r1
      let pos : Vec3 := ⟨minB.x + ux * (maxB.x - minB.x), 0,
                         minB.y + uz * (maxB.y - minB.y)⟩
      if blockedAt cfg bs pos then
        cubeLoop env cfg bs minB maxB n placed r2 vols
      else
        let (uh, r3) := draw env r2
        let height := cfg.groundLightMinHeight +
          uh * (cfg.groundLightMaxHeight - cfg.groundLightMinHeight)
        let (us, r4) := draw env r3
        let baseRadius := cfg.groundLightMinSize +
          us * (cfg.groundLightMaxSize - cfg.groundLightMinSize)
        let (uc, r5) := draw env r4
        let color : Vec3 :=
          if uc < 2/10 then ⟨2/10, 1, 12/10⟩
          else if uc < 4/10 then ⟨1, 3/10, 1⟩
          else if uc < 6/10 then ⟨12/10, 6/10, 2/10⟩
          else if uc < 8/10 then ⟨3/10, 5/10, 13/10⟩
          else ⟨1, 4/10, 8/10⟩
        let (ui, r6) := draw env r5
        let intensity := cfg.groundLightMinIntensity +
          ui * (cfg.groundLightMaxIntensity - cfg.groundLightMinIntensity)
        let volume : LightVolume :=
          { basePosition := pos, height := height, baseRadius := baseRadius,
            color := color, intensity := intensity, isCone := false }
        cubeLoop env cfg bs minB maxB n (placed + 1) r6 (vols ++ [volume])
    else (vols, r)

/-- `CityGenerator::addCubeLightVolumes` (lines 563–650). -/
def addCubeLightVolumes (env : Env) (cfg : Config) (s : GenState) : GenState :=
  if s.buildings = [] then s
  else
    let bounds := cityBounds s.buildings
    let vr := cubeLoop env cfg s.buildings bounds.1 bounds.2
      cfg.groundLightAttempts 0 s.rng s.lightVolumes
    { s with rng := vr.2, lightVolumes := vr.1 }

/-- Lookup in the `std::map<std::pair<int,int>, ChunkData>` chunk map. -/
def mapLookup (k : Int × Int) : List ((Int × Int) × ChunkData) → Option ChunkData
  | [] => none
  | e :: es => if e.1 = k then some e.2 else mapLookup k es

/-- `CityGenerator::generateChunk` (lines 37–114). -/
def generateChunk (env : Env) (cfg : Config) (chunkX chunkZ baseSeed : Int)
    (s : GenState) : GenState :=
  if (mapLookup (chunkX, chunkZ) s.chunkData).isSome then s
  else
    let chunkSeed := chunkSeedOf baseSeed chunkX chunkZ
    let s1 : GenState := { s with rng := ⟨chunkSeed, 0⟩ }
    let buildingStartIndex := s.buildings.length
    let neonStartIndex := s.neonLights.length
    let volumeStartIndex := s.lightVolumes.length
    let chunkWorldX := (chunkX : ℚ) * cfg.chunkSize
    let chunkWorldZ := (chunkZ : ℚ) * cfg.chunkSize
    let s2 := chunkCellsFold env cfg chunkWorldX chunkWorldZ chunkCells s1
    let s3 := addCubeLightVolumes env cfg s2
    let cd : ChunkData :=
      { buildingIndices := List.range' buildingStartIndex (s3.buildings.length - buildingStartIndex),
        neonIndices := List.range' neonStartIndex (s3.neonLights.length - neonStartIndex),
        lightVolumeIndices := List.range' volumeStartIndex (s3.lightVolumes.length - volumeStartIndex) }
    { s3 with chunkData := s3.chunkData ++ [((chunkX, chunkZ), cd)] }

/-- `CityGenerator::removeChunk` (lines 116–121): erases only the chunk's
record; the global arrays are untouched. -/
def removeChunk (chunkX chunkZ : Int) (s : GenState) : GenState :=
  { s with chunkData := s.chunkData.filter (fun e => decide (e.1 ≠ (chunkX, chunkZ))) }

/-- `CityGenerator::clearAllChunks` (lines 123–128). -/
def clearAllChunks (s : GenState) : GenState :=
  { s with buildings := [], neonLights := [], lightVolumes := [], chunkData := [] }

/-! ### Concrete instances used by witnesses and counterexamples -/

/-- A concrete environment: every uniform draw is `1/4`, `exp` is the constant
`1/2`, `sqrt` is the identity (both satisfy the bounds the theorems assume on
the domains where the generator calls them). -/
def constEnv : Env where
  unif := fun _ _ => 1/4
  rexp := fun _ => 1/2
  rsqrt := fun x => x

/-- A concrete configuration: density 0 (only the guaranteed center building
spawns), a single ground-light attempt, zero clearance. -/
def cexConfig : Config :=
  { defaultConfig with buildingDensity := 0, groundLightAttempts := 1,
                       groundLightMinClearance := 0 }

/-- State after generating chunk (0,0) from a fresh generator. -/
def ordA0 : GenState := generateChunk constEnv cexConfig 0 0 42 initState

/-- State after generating chunk (0,0) and then chunk (1,0). -/
def ordA : GenState := generateChunk constEnv cexConfig 1 0 42 ordA0

/-- State after generating only chunk (1,0) from a fresh generator. -/
def ordB : GenState := generateChunk constEnv cexConfig 1 0 42 initState

/-- A concrete trunk part (position at the origin, size `(2, 10, 6)`). -/
def cexTrunk : BuildingPart := ⟨⟨0, 0, 0⟩, ⟨2, 10, 6⟩, ⟨1, 1, 1⟩, 0⟩

/-- A concrete building holding just `cexTrunk`. -/
def cexBuilding : Building :=
  { position := ⟨0, 0, 0⟩, size := ⟨2, 10, 6⟩, color := ⟨1, 1, 1⟩,
    parts := [cexTrunk], heightVariation := 0, hasAntenna := false }

/-! ### Chunk-map lemmas -/

theorem mapLookup_none_notin {k : Int × Int} :
    ∀ {m : List ((Int × Int) × ChunkData)}, mapLookup k m = none →
      ∀ e ∈ m, e.1 ≠ k := by
  intro m
  induction m with
  | nil => intro _ e he; cases he
  | cons a as ih =>
    intro h e he
    rw [mapLookup] at h
    by_cases hk : a.1 = k
    · simp [hk] at h
    · rcases List.mem_cons.mp he with he' | he'
      · simpa [he'] using hk
      · exact ih (by simpa [hk] using h) e he'

theorem mapLookup_append_self {k : Int × Int} {cd : ChunkData}
    {m : List ((Int × Int) × ChunkData)} (h : mapLookup k m = none) :
    mapLookup k (m ++ [(k, cd)]) = some cd := by
  induction m with
  | nil => simp [mapLookup]
  | cons a as ih =>
    rw [mapLookup] at h
    rw [List.cons_append, mapLookup]
    by_cases hk : a.1 = k
    · simp [hk] at h
    · simpa [hk] using ih (by simpa [hk] using h)

theorem mapLookup_append_other {k j : Int × Int} {cd : ChunkData}
    {m : List ((Int × Int) × ChunkData)} (h : j ≠ k) :
    mapLookup k (m ++ [(j, cd)]) = mapLookup k m := by
  induction m with
  | nil => simp [mapLookup, h]
  | cons a as ih =>
    rw [List.cons_append, mapLookup, mapLookup]
    by_cases hk : a.1 = k
    · simp [hk]
    · simpa [hk] using ih

theorem filter_append_key {k : Int × Int} {cd : ChunkData}
    {m : List ((Int × Int) × ChunkData)} (h : mapLookup k m = none) :
    (m ++ [(k, cd)]).filter (fun e => decide (e.1 ≠ k)) = m := by
  induction m with
  | nil => simp [List.filter]
  | cons a as ih =>
    rw [mapLookup] at h
    by_cases hk : a.1 = k
    · simp [hk] at h
    · rw [List.cons_append, List.filter_cons]
      simp only [hk, decide_not]
      simpa [hk] using congrArg (a :: ·) (ih (by simpa [hk] using h))

/-! ### Frame lemmas: which state components each operation touches -/

theorem generateBuilding_eq (env : Env) (cfg : Config) (pos : Vec2) (s : GenState) :
    generateBuilding env cfg pos s =
      { s with
        rng := (addNeonLights env (mkBuilding env cfg pos s.rng).1
                 (mkBuilding env cfg pos s.rng).2).2,
        neonLights := s.neonLights ++
          (addNeonLights env (mkBuilding env cfg pos s.rng).1
            (mkBuilding env cfg pos s.rng).2).1,
        buildings := s.buildings ++ [(mkBuilding env cfg pos s.rng).1] } := rfl

theorem chunkCellStep_frame (env : Env) (cfg : Config) (cwx cwz : ℚ)
    (c : Nat × Nat) (s : GenState) :
    (chunkCellStep env cfg cwx cwz c s).chunkData = s.chunkData ∧
    (chunkCellStep env cfg cwx cwz c s).lightVolumes = s.lightVolumes := by
  unfold chunkCellStep
  split
  · exact ⟨rfl, rfl⟩
  · dsimp only
    split
    · exact ⟨rfl, rfl⟩
    · exact ⟨rfl, rfl⟩

theorem chunkCellsFold_frame (env : Env) (cfg : Config) (cwx cwz : ℚ) :
    ∀ (L : List (Nat × Nat)) (s : GenState),
      (chunkCellsFold env cfg cwx cwz L s).chunkData = s.chunkData ∧
      (chunkCellsFold env cfg cwx cwz L s).lightVolumes = s.lightVolumes := by
  intro L
  induction L with
  | nil => intro s; exact ⟨rfl, rfl⟩
  | cons c cs ih =>
    intro s
    rw [chunkCellsFold]
    refine ⟨?_, ?_⟩
    · rw [(ih _).1, (chunkCellStep_frame env cfg cwx cwz c s).1]
    · rw [(ih _).2, (chunkCellStep_frame env cfg cwx cwz c s).2]

theorem addCubeLightVolumes_frame (env : Env) (cfg : Config) (s : GenState) :
    (addCubeLightVolumes env cfg s).buildings = s.buildings ∧
    (addCubeLightVolumes env cfg s).neonLights = s.neonLights ∧
    (addCubeLightVolumes env cfg s).chunkData = s.chunkData := by
  unfold addCubeLightVolumes
  split
  · exact ⟨rfl, rfl, rfl⟩
  · exact ⟨rfl, rfl, rfl⟩

/-! ### Growth of the building array through the cell loop -/

theorem chunkCellStep_length_le (env : Env) (cfg : Config) (cwx cwz : ℚ)
    (c : Nat × Nat) (s : GenState) :
    s.buildings.length ≤ (chunkCellStep env cfg cwx cwz c s).buildings.length := by
  unfold chunkCellStep
  split
  · simp [generateBuilding_eq]
  · dsimp only
    split
    · exact le_rfl
    · simp [generateBuilding_eq]

theorem chunkCellStep_center_length (env : Env) (cfg : Config) (cwx cwz : ℚ)
    (s : GenState) :
    (chunkCellStep env cfg cwx cwz (2, 2) s).buildings.length =
      s.buildings.length + 1 := by
  unfold chunkCellStep
  simp [generateBuilding_eq]

theorem chunkCellsFold_length_le (env : Env) (cfg : Config) (cwx cwz : ℚ) :
    ∀ (L : List (Nat × Nat)) (s : GenState),
      s.buildings.length ≤ (chunkCellsFold env cfg cwx cwz L s).buildings.length := by
  intro L
  induction L with
  | nil => intro s; exact le_rfl
  | cons c cs ih =>
    intro s
    rw [chunkCellsFold]
    exact le_trans (chunkCellStep_length_le env cfg cwx cwz c s) (ih _)

theorem chunkCellsFold_center_lt (env : Env) (cfg : Config) (cwx cwz : ℚ) :
    ∀ (L : List (Nat × Nat)) (s : GenState), (2, 2) ∈ L →
      s.buildings.length < (chunkCellsFold env cfg cwx cwz L s).buildings.length := by
  intro L
  induction L with
  | nil => intro s h; cases h
  | cons c cs ih =>
    intro s h
    rw [chunkCellsFold]
    rcases List.mem_cons.mp h with h | h
    · calc s.buildings.length
          < (chunkCellStep env cfg cwx cwz c s).buildings.length := by
            rw [← h, chunkCellStep_center_length]; omega
        _ ≤ _ := chunkCellsFold_length_le env cfg cwx cwz cs _
    · exact lt_of_le_of_lt (chunkCellStep_length_le env cfg cwx cwz c s) (ih _ h)

/-! ### Decomposition of a fresh `generateChunk` call -/

/-- The state after the cell loop of a fresh `generateChunk` call. -/
def chunkFoldState (env : Env) (cfg : Config) (x z seed : Int) (s : GenState) : GenState :=
  chunkCellsFold env cfg ((x : ℚ) * cfg.chunkSize) ((z : ℚ) * cfg.chunkSize)
    chunkCells { s with rng := ⟨chunkSeedOf seed x z, 0⟩ }

/-- The state after the cell loop and the cube-light pass of a fresh
`generateChunk` call. -/
def chunkFinalState (env : Env) (cfg : Config) (x z seed : Int) (s : GenState) : GenState :=
  addCubeLightVolumes env cfg (chunkFoldState env cfg x z seed s)

/-- The Chunk Record a fresh `generateChunk` call stores. -/
def chunkRecordOf (env : Env) (cfg : Config) (x z seed : Int) (s : GenState) : ChunkData where
  buildingIndices := List.range' s.buildings.length
    ((chunkFinalState env cfg x z seed s).buildings.length - s.buildings.length)
  neonIndices := List.range' s.neonLights.length
    ((chunkFinalState env cfg x z seed s).neonLights.length - s.neonLights.length)
  lightVolumeIndices := List.range' s.lightVolumes.length
    ((chunkFinalState env cfg x z seed s).lightVolumes.length - s.lightVolumes.length)

theorem generateChunk_of_none (env : Env) (cfg : Config) (x z seed : Int)
    (s : GenState) (h : mapLookup (x, z) s.chunkData = none) :
    generateChunk env cfg x z seed s =
      { chunkFinalState env cfg x z seed s with
        chunkData := (chunkFinalState env cfg x z seed s).chunkData ++
          [((x, z), chunkRecordOf env cfg x z seed s)] } := by
  rw [generateChunk, h]
  rfl

theorem generateChunk_of_some (env : Env) (cfg : Config) (x z seed : Int)
    (s : GenState) (h : (mapLookup (x, z) s.chunkData).isSome) :
    generateChunk env cfg x z seed s = s := by
  rw [generateChunk, if_pos h]

theorem chunkFinalState_chunkData (env : Env) (cfg : Config) (x z seed : Int)
    (s : GenState) :
    (chunkFinalState env cfg x z seed s).chunkData = s.chunkData := by
  rw [chunkFinalState, (addCubeLightVolumes_frame env cfg _).2.2, chunkFoldState,
      (chunkCellsFold_frame env cfg _ _ _ _).1]

theorem chunkFinalState_buildings (env : Env) (cfg : Config) (x z seed : Int)
    (s : GenState) :
    (chunkFinalState env cfg x z seed s).buildings =
      (chunkFoldState env cfg x z seed s).buildings := by
  rw [chunkFinalState, (addCubeLightVolumes_frame env cfg _).1]

theorem chunkFinalState_neonLights (env : Env) (cfg : Config) (x z seed : Int)
    (s : GenState) :
    (chunkFinalState env cfg x z seed s).neonLights =
      (chunkFoldState env cfg x z seed s).neonLights := by
  rw [chunkFinalState, (addCubeLightVolumes_frame env cfg _).2.1]

theorem generateChunk_chunkData_of_none (env : Env) (cfg : Config) (x z seed : Int)
    (s : GenState) (h : mapLookup (x, z) s.chunkData = none) :
    (generateChunk env cfg x z seed s).chunkData =
      s.chunkData ++ [((x, z), chunkRecordOf env cfg x z seed s)] := by
  rw [generateChunk_of_none env cfg x z seed s h]
  show (chunkFinalState env cfg x z seed s).chunkData ++ _ = _
  rw [chunkFinalState_chunkData]

theorem generateChunk_buildings_growth (env : Env) (cfg : Config) (x z seed : Int)
    (s : GenState) (h : mapLookup (x, z) s.chunkData = none) :
    s.buildings.length < (generateChunk env cfg x z seed s).buildings.length := by
  rw [generateChunk_of_none env cfg x z seed s h]
  show s.buildings.length < (chunkFinalState env cfg x z seed s).buildings.length
  rw [chunkFinalState_buildings, chunkFoldState]
  have hc : (2, 2) ∈ chunkCells := by decide
  exact chunkCellsFold_center_lt env cfg ((x : ℚ) * cfg.chunkSize)
    ((z : ℚ) * cfg.chunkSize) chunkCells
    { s with rng := ⟨chunkSeedOf seed x z, 0⟩ } hc

/-! ### The branch recursion only appends parts, in pairs -/

/-- A building together with a list of parts appended to it. -/
def withParts (b : Building) (l : List BuildingPart) : Building :=
  { b with parts := b.parts ++ l }

theorem withParts_withParts (b : Building) (l1 l2 : List BuildingPart) :
    withParts (withParts b l1) l2 = withParts b (l1 ++ l2) := by
  simp [withParts]

/-- The append-only/even shape property of a branch-attachment function. -/
def AppendsEven (f : Building → Rng → Building × Rng) : Prop :=
  ∀ b r, ∃ l, (f b r).1 = withParts b l ∧ Even l.length

theorem pairsIter_appendsEven {f : Building → Rng → Building × Rng}
    (hf : AppendsEven f) : ∀ n : Nat, AppendsEven (pairsIter f n) := by
  intro n
  induction n with
  | zero => intro b r; exact ⟨[], by simp [pairsIter, withParts], by simp⟩
  | succ m ih =>
    intro b r
    obtain ⟨l1, h1, e1⟩ := hf b r
    obtain ⟨l2, h2, e2⟩ := ih (f b r).1 (f b r).2
    refine ⟨l1 ++ l2, ?_, by simpa using e1.add e2⟩
    show (pairsIter f m (f b r).1 (f b r).2).1 = _
    rw [h2, h1, withParts_withParts]

theorem appendsEven_comp {f g : Building → Rng → Building × Rng}
    (hf : AppendsEven f) (hg : AppendsEven g) :
    AppendsEven (fun b r => g (f b r).1 (f b r).2) := by
  intro b r
  obtain ⟨l1, h1, e1⟩ := hf b r
  obtain ⟨l2, h2, e2⟩ := hg (f b r).1 (f b r).2
  exact ⟨l1 ++ l2, by rw [h2, h1, withParts_withParts],
    by simpa using e1.add e2⟩

theorem rec_pair_shape {recurse : Int → Building → BuildingPart → Rng → Building × Rng}
    (hrec : ∀ d parent, AppendsEven (fun b r => recurse d b parent r))
    (detail : Int) (b : Building) (p q f k : BuildingPart) (R : Rng) :
    ∃ l, (recurse detail (recurse detail (withParts b [p, q]) f R).1 k
            (recurse detail (withParts b [p, q]) f R).2).1 = withParts b l ∧
      Even l.length := by
  obtain ⟨l, hl, he⟩ :=
    appendsEven_comp (hrec detail f) (hrec detail k) (withParts b [p, q]) R
  refine ⟨[p, q] ++ l, ?_, ?_⟩
  · rw [hl, withParts_withParts]
  · have h2 : ([p, q] ++ l).length = 2 + l.length := by simp; omega
    rw [h2]
    exact (by decide : Even 2).add he

theorem addSymBody_appendsEven (env : Env)
    (recurse : Int → Building → BuildingPart → Rng → Building × Rng)
    (hrec : ∀ d parent, AppendsEven (fun b r => recurse d b parent r))
    (detail : Int) (parent : BuildingPart) :
    AppendsEven (fun b r => addSymBody env recurse detail b parent r) := by
  intro b r
  simp only [addSymBody]
  split
  · split
    · exact rec_pair_shape hrec detail b _ _ _ _ _
    · exact ⟨[_, _], rfl, ⟨1, rfl⟩⟩
  · split
    · split
      · exact rec_pair_shape hrec detail b _ _ _ _ _
      · exact ⟨[_, _], rfl, ⟨1, rfl⟩⟩
    · split
      · exact rec_pair_shape hrec detail b _ _ _ _ _
      · exact ⟨[_, _], rfl, ⟨1, rfl⟩⟩

theorem genBBody_appendsEven (env : Env)
    (attach : Int → Building → BuildingPart → Rng → Building × Rng)
    (hatt : ∀ d parent, AppendsEven (fun b r => attach d b parent r))
    (maxDepth currentDepth : Int) (parent : BuildingPart) :
    AppendsEven (fun b r => genBBody env attach maxDepth currentDepth b parent r) := by
  intro b r
  simp only [genBBody]
  split
  · exact ⟨[], by simp [withParts], by simp⟩
  · exact pairsIter_appendsEven (hatt (currentDepth + 1) parent) _ b _

theorem branchFns_appendsEven (env : Env) : ∀ fuel : Nat,
    (∀ maxDepth currentDepth parent,
      AppendsEven (fun b r => (branchFns env fuel).1 maxDepth currentDepth b parent r)) ∧
    (∀ detail parent,
      AppendsEven (fun b r => (branchFns env fuel).2 detail b parent r)) := by
  intro fuel
  induction fuel with
  | zero =>
    constructor
    · intro maxDepth currentDepth parent b r
      exact ⟨[], by simp [branchFns, withParts], by simp⟩
    · intro detail parent
      exact addSymBody_appendsEven env _
        (fun d p b r => ⟨[], by simp [withParts], by simp⟩) detail parent
  | succ f ih =>
    have hA : ∀ detail parent,
        AppendsEven (fun b r => (branchFns env (f + 1)).2 detail b parent r) := by
      intro detail parent
      exact addSymBody_appendsEven env _
        (fun d p => ih.1 2 d p) detail parent
    exact ⟨fun maxDepth currentDepth parent =>
      genBBody_appendsEven env _ hA maxDepth currentDepth parent, hA⟩

theorem generateBranches_appendsEven (env : Env) (fuel : Nat)
    (maxDepth currentDepth : Int) (parent : BuildingPart) :
    AppendsEven (fun b r => generateBranches env fuel maxDepth currentDepth b parent r) :=
  (branchFns_appendsEven env fuel).1 maxDepth currentDepth parent

/-! ### The two siblings attached by `addSymmetricBranches` -/

theorem rec_pair_parts {recurse : Int → Building → BuildingPart → Rng → Building × Rng}
    (hrec : ∀ d parent, AppendsEven (fun b r => recurse d b parent r))
    (detail : Int) (b : Building) (p q f k : BuildingPart) (R : Rng) :
    ∃ rest, (recurse detail (recurse detail (withParts b [p, q]) f R).1 k
              (recurse detail (withParts b [p, q]) f R).2).1.parts
        = b.parts ++ p :: q :: rest := by
  obtain ⟨l, hl, -⟩ :=
    appendsEven_comp (hrec detail f) (hrec detail k) (withParts b [p, q]) R
  refine ⟨l, ?_⟩
  rw [hl, withParts_withParts]
  simp [withParts]

theorem addSymBody_siblings (env : Env)
    (recurse : Int → Building → BuildingPart → Rng → Building × Rng)
    (hrec : ∀ d parent, AppendsEven (fun b r => recurse d b parent r))
    (detail : Int) (b : Building) (parent : BuildingPart) (r : Rng) :
    ∃ q1 q2 rest,
      (addSymBody env recurse detail b parent r).1.parts =
        b.parts ++ q1 :: q2 :: rest ∧
      q1.size = q2.size ∧ q1.color = q2.color ∧
      q1.detailLevel = detail ∧ q2.detailLevel = detail ∧
      q1.position.y = q2.position.y ∧
      q1.position.x - parent.position.x = -(q2.position.x - parent.position.x) ∧
      q1.position.z - parent.position.z = -(q2.position.z - parent.position.z) := by
  simp only [addSymBody]
  split
  · split
    · obtain ⟨rest, hrest⟩ := rec_pair_parts hrec detail b _ _ _ _ _
      exact ⟨_, _, rest, hrest, rfl, rfl, rfl, rfl, rfl, by dsimp only; ring,
        by dsimp only; ring⟩
    · exact ⟨_, _, [], rfl, rfl, rfl, rfl, rfl, rfl, by dsimp only; ring,
        by dsimp only; ring⟩
  · split
    · split
      · obtain ⟨rest, hrest⟩ := rec_pair_parts hrec detail b _ _ _ _ _
        exact ⟨_, _, rest, hrest, rfl, rfl, rfl, rfl, rfl, by dsimp only; ring,
          by dsimp only; ring⟩
      · exact ⟨_, _, [], rfl, rfl, rfl, rfl, rfl, rfl, by dsimp only; ring,
          by dsimp only; ring⟩
    · split
      · obtain ⟨rest, hrest⟩ := rec_pair_parts hrec detail b _ _ _ _ _
        exact ⟨_, _, rest, hrest, rfl, rfl, rfl, rfl, rfl, by dsimp only; ring,
          by dsimp only; ring⟩
      · exact ⟨_, _, [], rfl, rfl, rfl, rfl, rfl, rfl, by dsimp only; ring,
          by dsimp only; ring⟩

/-- C5 (amended): every `addSymmetricBranches` call appends two sibling parts
with identical size, color and detail level, equal vertical position, and BOTH
horizontal position coordinates mirrored about the parent's position — not
just one mirrored coordinate with the others equal: the lateral attachment
offset is mirrored too (see the counterexample). -/
theorem addSymmetricBranches_siblings (env : Env) (fuel : Nat) (detail : Int)
    (b : Building) (parent : BuildingPart) (r : Rng) :
    ∃ q1 q2 rest,
      (addSymmetricBranches env fuel detail b parent r).1.parts =
        b.parts ++ q1 :: q2 :: rest ∧
      q1.size = q2.size ∧ q1.color = q2.color ∧
      q1.detailLevel = detail ∧ q2.detailLevel = detail ∧
      q1.position.y = q2.position.y ∧
      q1.position.x - parent.position.x = -(q2.position.x - parent.position.x) ∧
      q1.position.z - parent.position.z = -(q2.position.z - parent.position.z) := by
  cases fuel with
  | zero =>
    exact addSymBody_siblings env _
      (fun d p b' r' => ⟨[], by simp [withParts], by simp⟩) detail b parent r
  | succ f =>
    exact addSymBody_siblings env _
      (fun d p => (branchFns_appendsEven env f).1 2 d p) detail b parent r

/-- The "one position coordinate mirrored about the parent's, the remaining
coordinates equal" relation the claim asserts for a sibling pair. -/
def mirrorOneCoord (parent q1 q2 : BuildingPart) : Prop :=
  (q1.position.x - parent.position.x = -(q2.position.x - parent.position.x) ∧
    q1.position.y = q2.position.y ∧ q1.position.z = q2.position.z) ∨
  (q1.position.y - parent.position.y = -(q2.position.y - parent.position.y) ∧
    q1.position.x = q2.position.x ∧ q1.position.z = q2.position.z) ∨
  (q1.position.z - parent.position.z = -(q2.position.z - parent.position.z) ∧
    q1.position.x = q2.position.x ∧ q1.position.y = q2.position.y)

instance (parent q1 q2 : BuildingPart) : Decidable (mirrorOneCoord parent q1 q2) := by
  unfold mirrorOneCoord
  infer_instance

/-- C5 (counterexample): for a concrete front/back pair both the X and the Z
position coordinates differ between the two siblings (the lateral offset is
mirrored along with the attachment axis), so no single coordinate is mirrored
with the remaining two equal. -/
theorem addSymmetricBranches_not_mirrorOneCoord :
    ¬ (((addSymmetricBranches constEnv 2 1 cexBuilding cexTrunk ⟨0, 0⟩).1.parts.getD 1 dummyPart).size =
         ((addSymmetricBranches constEnv 2 1 cexBuilding cexTrunk ⟨0, 0⟩).1.parts.getD 2 dummyPart).size ∧
       ((addSymmetricBranches constEnv 2 1 cexBuilding cexTrunk ⟨0, 0⟩).1.parts.getD 1 dummyPart).color =
         ((addSymmetricBranches constEnv 2 1 cexBuilding cexTrunk ⟨0, 0⟩).1.parts.getD 2 dummyPart).color ∧
       mirrorOneCoord cexTrunk
         ((addSymmetricBranches constEnv 2 1 cexBuilding cexTrunk ⟨0, 0⟩).1.parts.getD 1 dummyPart)
         ((addSymmetricBranches constEnv 2 1 cexBuilding cexTrunk ⟨0, 0⟩).1.parts.getD 2 dummyPart)) := by
  decide

/-! ### Shape of the building assembled by `generateBuilding` -/

/-- All draws of the engine stream are uniform `[0,1)` values. -/
def unifBounded (env : Env) : Prop :=
  ∀ s n, 0 ≤ env.unif s n ∧ env.unif s n < 1

/-- `mkBuilding` assembles a trunk-only building and hands it to
`generateBranches` with fuel 2, maximum depth 2, current depth 0; the drawn
trunk width and depth are positive whenever the draws are in `[0,1)`, and the
trunk height is a `generateHeight` result. -/
theorem mkBuilding_shape (env : Env) (cfg : Config) (pos : Vec2) (r : Rng) :
    ∃ (sz col : Vec3) (hv : ℚ) (ha : Bool) (r9 rh : Rng),
      mkBuilding env cfg pos r =
        generateBranches env 2 2 0
          { position := ⟨pos.x, 0, pos.y⟩, size := sz, color := col,
            parts := [⟨⟨0, 0, 0⟩, sz, col, 0⟩], heightVariation := hv,
            hasAntenna := ha }
          ⟨⟨0, 0, 0⟩, sz, col, 0⟩ r9 ∧
      sz.y = (generateHeight env cfg rh).1 ∧
      (unifBounded env → 0 < sz.x ∧ 0 < sz.z) := by
  simp only [mkBuilding]
  split
  · exact ⟨_, _, _, _, _, _, rfl, rfl, fun hu => by
      have key1 : ∀ (s : Int) (n : Nat), (0 : ℚ) < 2 + env.unif s n * 4 := by
        intro s n; have := (hu s n).1; linarith
      have key2 : ∀ (s : Int) (n : Nat), (0 : ℚ) < 3/2 + env.unif s n * 2 := by
        intro s n; have := (hu s n).1; linarith
      exact ⟨mul_pos (key1 _ _) (key2 _ _), key1 _ _⟩⟩
  · exact ⟨_, _, _, _, _, _, rfl, rfl, fun hu => by
      have key1 : ∀ (s : Int) (n : Nat), (0 : ℚ) < 2 + env.unif s n * 4 := by
        intro s n; have := (hu s n).1; linarith
      have key2 : ∀ (s : Int) (n : Nat), (0 : ℚ) < 3/2 + env.unif s n * 2 := by
        intro s n; have := (hu s n).1; linarith
      exact ⟨key1 _ _, mul_pos (key1 _ _) (key2 _ _)⟩⟩

/-- C10: every Building produced by `generateBuilding` has a non-empty parts
list, its first element is the trunk (detail level 0, position at the origin,
size equal to the building's size), and the total number of parts is odd,
because branches are only ever appended in symmetric pairs. -/
theorem mkBuilding_parts_structure (env : Env) (cfg : Config) (pos : Vec2)
    (r : Rng) :
    ∃ t rest, (mkBuilding env cfg pos r).1.parts = t :: rest ∧
      t.detailLevel = 0 ∧ t.position = ⟨0, 0, 0⟩ ∧
      t.size = (mkBuilding env cfg pos r).1.size ∧
      Odd (mkBuilding env cfg pos r).1.parts.length := by
  obtain ⟨sz, col, hv, ha, r9, rh, heq, -, -⟩ := mkBuilding_shape env cfg pos r
  obtain ⟨l, hl, he⟩ := generateBranches_appendsEven env 2 2 0
    ⟨⟨0, 0, 0⟩, sz, col, 0⟩
    { position := ⟨pos.x, 0, pos.y⟩, size := sz, color := col,
      parts := [⟨⟨0, 0, 0⟩, sz, col, 0⟩], heightVariation := hv,
      hasAntenna := ha } r9
  refine ⟨⟨⟨0, 0, 0⟩, sz, col, 0⟩, l, ?_, rfl, rfl, ?_, ?_⟩
  · rw [heq, hl]
    rfl
  · rw [heq, hl]
    rfl
  · rw [heq, hl]
    show Odd ([(⟨⟨0, 0, 0⟩, sz, col, 0⟩ : BuildingPart)] ++ l).length
    rcases he with ⟨m, hm⟩
    exact ⟨m, by simp [hm]; omega⟩

/-! ### Positivity of all part sizes -/

/-- All three size components of a Building Part are strictly positive. -/
def posPart (p : BuildingPart) : Prop :=
  0 < p.size.x ∧ 0 < p.size.y ∧ 0 < p.size.z

theorem generateHeight_pos (env : Env) (cfg : Config) (r : Rng)
    (hu : unifBounded env)
    (hexp : ∀ q : ℚ, q ≤ 0 → 0 < env.rexp q ∧ env.rexp q ≤ 1)
    (hsqrt : ∀ q : ℚ, 0 ≤ q → q ≤ 1/2 → 0 ≤ env.rsqrt q ∧ env.rsqrt q ≤ 1)
    (hlam : 0 ≤ cfg.heightDistributionLambda)
    (hmin : 0 < cfg.minHeight) (hmm : cfg.minHeight ≤ cfg.maxHeight) :
    0 < (generateHeight env cfg r).1 := by
  simp only [generateHeight, draw]
  have hu1 := hu r.seed r.counter
  have hu2 := hu r.seed (r.counter + 1)
  have hu3 := hu r.seed (r.counter + 1 + 1)
  have harg1 : 0 ≤ (env.unif r.seed (r.counter + 1) - 1/2) ^ 2 +
      (env.unif r.seed (r.counter + 1 + 1) - 1/2) ^ 2 := by positivity
  have harg2 : (env.unif r.seed (r.counter + 1) - 1/2) ^ 2 +
      (env.unif r.seed (r.counter + 1 + 1) - 1/2) ^ 2 ≤ 1/2 := by nlinarith
  obtain ⟨hs0, hs1⟩ := hsqrt _ harg1 harg2
  have hcb : (0:ℚ) < 1 - env.rsqrt ((env.unif r.seed (r.counter + 1) - 1/2) ^ 2 +
      (env.unif r.seed (r.counter + 1 + 1) - 1/2) ^ 2) * (3/10) := by nlinarith
  obtain ⟨he0, he1⟩ := hexp (-cfg.heightDistributionLambda * env.unif r.seed r.counter)
    (by nlinarith)
  have hf : (0:ℚ) ≤ min (env.rexp (-cfg.heightDistributionLambda * env.unif r.seed r.counter) *
      (1 - env.rsqrt ((env.unif r.seed (r.counter + 1) - 1/2) ^ 2 +
        (env.unif r.seed (r.counter + 1 + 1) - 1/2) ^ 2) * (3/10))) 1 :=
    le_min (by nlinarith) (by norm_num)
  nlinarith [mul_nonneg hf (by linarith : (0:ℚ) ≤ cfg.maxHeight - cfg.minHeight)]

theorem mem_append_pair {b : Building} {F K : BuildingPart}
    (hb : ∀ p ∈ b.parts, posPart p) (hF : posPart F) (hK : posPart K) :
    ∀ p ∈ b.parts ++ [F, K], posPart p := by
  intro p hp
  rcases List.mem_append.mp hp with h | h
  · exact hb p h
  · simp only [List.mem_cons, List.not_mem_nil, or_false] at h
    rcases h with rfl | rfl
    · exact hF
    · exact hK

theorem pairsIter_pos {f : Building → Rng → Building × Rng}
    (hf : ∀ b r, (∀ p ∈ b.parts, posPart p) → ∀ p ∈ (f b r).1.parts, posPart p) :
    ∀ (n : Nat) (b : Building) (r : Rng), (∀ p ∈ b.parts, posPart p) →
      ∀ p ∈ (pairsIter f n b r).1.parts, posPart p := by
  intro n
  induction n with
  | zero => intro b r hb; exact hb
  | succ m ih => intro b r hb; exact ih (f b r).1 (f b r).2 (hf b r hb)

theorem addSymBody_pos (env : Env) (hu : unifBounded env)
    (recurse : Int → Building → BuildingPart → Rng → Building × Rng)
    (hrec : ∀ d b parent r, (∀ p ∈ b.parts, posPart p) → posPart parent →
        ∀ p ∈ (recurse d b parent r).1.parts, posPart p)
    (detail : Int) (b : Building) (parent : BuildingPart) (r : Rng)
    (hb : ∀ p ∈ b.parts, posPart p) (hp : posPart parent) :
    ∀ p ∈ (addSymBody env recurse detail b parent r).1.parts, posPart p := by
  obtain ⟨hpx, hpy, hpz⟩ := hp
  have c1 : ∀ (s : Int) (n : Nat), (0:ℚ) < 3/10 + env.unif s n * (4/10) :=
    fun s n => by have := (hu s n).1; linarith
  have c2 : ∀ (s : Int) (n : Nat), (0:ℚ) < 4/10 + env.unif s n * (6/10) :=
    fun s n => by have := (hu s n).1; linarith
  have c3 : ∀ (s : Int) (n : Nat), (0:ℚ) < 7/10 + env.unif s n * (3/10) :=
    fun s n => by have := (hu s n).1; linarith
  simp only [addSymBody]
  intro p hp
  split at hp
  · split at hp
    · refine hrec _ _ _ _ ?_ ?_ p hp
      · refine hrec _ _ _ _ ?_ ?_
        · refine mem_append_pair hb ?_ ?_
          · exact ⟨mul_pos hpx (c1 _ _), mul_pos hpy (c1 _ _), mul_pos hpz (c2 _ _)⟩
          · exact ⟨mul_pos hpx (c1 _ _), mul_pos hpy (c1 _ _), mul_pos hpz (c2 _ _)⟩
        · exact ⟨mul_pos hpx (c1 _ _), mul_pos hpy (c1 _ _), mul_pos hpz (c2 _ _)⟩
      · exact ⟨mul_pos hpx (c1 _ _), mul_pos hpy (c1 _ _), mul_pos hpz (c2 _ _)⟩
    · refine mem_append_pair hb ?_ ?_ p hp
      · exact ⟨mul_pos hpx (c1 _ _), mul_pos hpy (c1 _ _), mul_pos hpz (c2 _ _)⟩
      · exact ⟨mul_pos hpx (c1 _ _), mul_pos hpy (c1 _ _), mul_pos hpz (c2 _ _)⟩
  · split at hp
    · split at hp
      · refine hrec _ _ _ _ ?_ ?_ p hp
        · refine hrec _ _ _ _ ?_ ?_
          · refine mem_append_pair hb ?_ ?_
            · exact ⟨mul_pos hpx (c2 _ _), mul_pos hpy (c1 _ _), mul_pos hpz (c1 _ _)⟩
            · exact ⟨mul_pos hpx (c2 _ _), mul_pos hpy (c1 _ _), mul_pos hpz (c1 _ _)⟩
          · exact ⟨mul_pos hpx (c2 _ _), mul_pos hpy (c1 _ _), mul_pos hpz (c1 _ _)⟩
        · exact ⟨mul_pos hpx (c2 _ _), mul_pos hpy (c1 _ _), mul_pos hpz (c1 _ _)⟩
      · refine mem_append_pair hb ?_ ?_ p hp
        · exact ⟨mul_pos hpx (c2 _ _), mul_pos hpy (c1 _ _), mul_pos hpz (c1 _ _)⟩
        · exact ⟨mul_pos hpx (c2 _ _), mul_pos hpy (c1 _ _), mul_pos hpz (c1 _ _)⟩
    · split at hp
      · refine hrec _ _ _ _ ?_ ?_ p hp
        · refine hrec _ _ _ _ ?_ ?_
          · refine mem_append_pair hb ?_ ?_
            · exact ⟨mul_pos hpx (c3 _ _), mul_pos hpy (c1 _ _), mul_pos hpz (c3 _ _)⟩
            · exact ⟨mul_pos hpx (c3 _ _), mul_pos hpy (c1 _ _), mul_pos hpz (c3 _ _)⟩
          · exact ⟨mul_pos hpx (c3 _ _), mul_pos hpy (c1 _ _), mul_pos hpz (c3 _ _)⟩
        · exact ⟨mul_pos hpx (c3 _ _), mul_pos hpy (c1 _ _), mul_pos hpz (c3 _ _)⟩
      · refine mem_append_pair hb ?_ ?_ p hp
        · exact ⟨mul_pos hpx (c3 _ _), mul_pos hpy (c1 _ _), mul_pos hpz (c3 _ _)⟩
        · exact ⟨mul_pos hpx (c3 _ _), mul_pos hpy (c1 _ _), mul_pos hpz (c3 _ _)⟩

theorem genBBody_pos (env : Env)
    (attach : Int → Building → BuildingPart → Rng → Building × Rng)
    (hatt : ∀ d b parent r, (∀ p ∈ b.parts, posPart p) → posPart parent →
        ∀ p ∈ (attach d b parent r).1.parts, posPart p)
    (maxDepth currentDepth : Int) (b : Building) (parent : BuildingPart)
    (r : Rng) (hb : ∀ p ∈ b.parts, posPart p) (hp : posPart parent) :
    ∀ p ∈ (genBBody env attach maxDepth currentDepth b parent r).1.parts,
      posPart p := by
  simp only [genBBody]
  split
  · exact hb
  · exact pairsIter_pos (fun b' r' hb' => hatt _ b' parent r' hb' hp) _ b _ hb

theorem branchFns_pos (env : Env) (hu : unifBounded env) : ∀ fuel : Nat,
    (∀ (maxDepth currentDepth : Int) (b : Building) (parent : BuildingPart)
        (r : Rng), (∀ p ∈ b.parts, posPart p) → posPart parent →
        ∀ p ∈ ((branchFns env fuel).1 maxDepth currentDepth b parent r).1.parts,
          posPart p) ∧
    (∀ (detail : Int) (b : Building) (parent : BuildingPart) (r : Rng),
        (∀ p ∈ b.parts, posPart p) → posPart parent →
        ∀ p ∈ ((branchFns env fuel).2 detail b parent r).1.parts, posPart p) := by
  intro fuel
  induction fuel with
  | zero =>
    constructor
    · intro maxD cur b parent r hb hp
      exact hb
    · intro detail b parent r hb hp
      exact addSymBody_pos env hu _ (fun d b' p' r' hb' hp' => hb')
        detail b parent r hb hp
  | succ f ih =>
    have hA : ∀ (detail : Int) (b : Building) (parent : BuildingPart) (r : Rng),
        (∀ p ∈ b.parts, posPart p) → posPart parent →
        ∀ p ∈ ((branchFns env (f + 1)).2 detail b parent r).1.parts, posPart p :=
      fun detail b parent r hb hp =>
        addSymBody_pos env hu _
          (fun d b' p' r' hb' hp' => ih.1 2 d b' p' r' hb' hp')
          detail b parent r hb hp
    exact ⟨fun maxD cur b parent r hb hp =>
      genBBody_pos env _ hA maxD cur b parent r hb hp, hA⟩

/-- C8: every Building Part of a Building produced by `generateBuilding` —
the trunk and every recursively generated branch — has all three size
components strictly positive, given `0 < minHeight ≤ maxHeight`, a
non-negative distribution shape parameter, uniform draws in `[0,1)`, and the
exp/sqrt bounds on the domains where the generator evaluates them. -/
theorem mkBuilding_parts_size_pos (env : Env) (cfg : Config) (pos : Vec2)
    (r : Rng) (hu : unifBounded env)
    (hexp : ∀ q : ℚ, q ≤ 0 → 0 < env.rexp q ∧ env.rexp q ≤ 1)
    (hsqrt : ∀ q : ℚ, 0 ≤ q → q ≤ 1/2 → 0 ≤ env.rsqrt q ∧ env.rsqrt q ≤ 1)
    (hlam : 0 ≤ cfg.heightDistributionLambda)
    (hmin : 0 < cfg.minHeight) (hmm : cfg.minHeight ≤ cfg.maxHeight) :
    ∀ p ∈ (mkBuilding env cfg pos r).1.parts, posPart p := by
  obtain ⟨sz, col, hv, ha, r9, rh, heq, hszy, hszxz⟩ := mkBuilding_shape env cfg pos r
  rw [heq]
  have hy : 0 < sz.y := by
    rw [hszy]
    exact generateHeight_pos env cfg rh hu hexp hsqrt hlam hmin hmm
  obtain ⟨hx, hz⟩ := hszxz hu
  have htrunk : posPart ⟨⟨0, 0, 0⟩, sz, col, 0⟩ := ⟨hx, hy, hz⟩
  refine (branchFns_pos env hu 2).1 2 0 _ _ r9 ?_ htrunk
  intro p hp
  simp only [List.mem_singleton] at hp
  subst hp
  exact htrunk

/-- C8 (witness): the positivity theorem applied to the concrete environment
and configuration. -/
theorem mkBuilding_parts_size_pos_witness :
    unifBounded constEnv ∧
    (∀ q : ℚ, q ≤ 0 → 0 < constEnv.rexp q ∧ constEnv.rexp q ≤ 1) ∧
    (∀ q : ℚ, 0 ≤ q → q ≤ 1/2 → 0 ≤ constEnv.rsqrt q ∧ constEnv.rsqrt q ≤ 1) ∧
    0 ≤ cexConfig.heightDistributionLambda ∧
    0 < cexConfig.minHeight ∧ cexConfig.minHeight ≤ cexConfig.maxHeight ∧
    ∀ p ∈ (mkBuilding constEnv cexConfig ⟨0, 0⟩ ⟨42, 0⟩).1.parts, posPart p :=
  ⟨fun _ _ => by norm_num [constEnv],
   fun q _ => by norm_num [constEnv],
   fun q h1 h2 => ⟨h1, le_trans h2 (by norm_num)⟩,
   by norm_num [cexConfig, defaultConfig],
   by norm_num [cexConfig, defaultConfig],
   by norm_num [cexConfig, defaultConfig],
   mkBuilding_parts_size_pos constEnv cexConfig ⟨0, 0⟩ ⟨42, 0⟩
     (fun _ _ => by norm_num [constEnv])
     (fun q _ => by norm_num [constEnv])
     (fun q h1 h2 => ⟨h1, le_trans h2 (by norm_num)⟩)
     (by norm_num [cexConfig, defaultConfig])
     (by norm_num [cexConfig, defaultConfig])
     (by norm_num [cexConfig, defaultConfig])⟩

/-! ### The neon clamp invariant -/

/-- The wall width the claim associates with a recorded face: faces 0/1
(front/back) use the hosting part's x size, faces 2/3 (left/right) its z
size; the wall height is always the part's y size. -/
def hostWallWidth (p : BuildingPart) (face : Int) : ℚ :=
  if face = 0 ∨ face = 1 then p.size.x else p.size.z

theorem neonBaseSize_pos (sizeRoll us : ℚ) (h : 0 ≤ us) :
    0 < neonBaseSize sizeRoll us := by
  unfold neonBaseSize
  split
  · linarith
  · split
    · linarith
    · split
      · linarith
      · linarith

theorem clampNeon_le (wallW wallH w0 h0 : ℚ) (hW : 0 ≤ wallW) (hH : 0 ≤ wallH)
    (hw : 0 < w0) (hh : 0 < h0) :
    (clampNeon wallW wallH w0 h0).1 ≤ 8/10 * wallW ∧
    (clampNeon wallW wallH w0 h0).2 ≤ 8/10 * wallH := by
  simp only [clampNeon]
  by_cases hA : w0 > wallW * (8/10)
  · rw [if_pos hA]
    dsimp only
    by_cases hB : h0 * (wallW * (8/10) / w0) > wallH * (8/10)
    · rw [if_pos hB]
      constructor
      · dsimp only
        have hX : (0:ℚ) < h0 * (wallW * (8/10) / w0) :=
          lt_of_le_of_lt (by positivity) hB
        have hdiv : wallH * (8/10) / (h0 * (wallW * (8/10) / w0)) ≤ 1 :=
          (div_le_one hX).mpr (le_of_lt hB)
        have hdiv0 : 0 ≤ wallH * (8/10) / (h0 * (wallW * (8/10) / w0)) :=
          div_nonneg (by positivity) hX.le
        have := mul_le_mul_of_nonneg_left hdiv
          (show (0:ℚ) ≤ wallW * (8/10) by positivity)
        linarith
      · linarith
    · rw [if_neg hB]
      dsimp only
      constructor
      · linarith
      · linarith
  · rw [if_neg hA]
    dsimp only
    by_cases hB : h0 > wallH * (8/10)
    · rw [if_pos hB]
      constructor
      · dsimp only
        have hdiv : wallH * (8/10) / h0 ≤ 1 := (div_le_one hh).mpr (le_of_lt hB)
        have hdiv0 : 0 ≤ wallH * (8/10) / h0 := div_nonneg (by positivity) hh.le
        have := mul_le_mul_of_nonneg_left hdiv hw.le
        push_neg at hA
        nlinarith
      · linarith
    · rw [if_neg hB]
      push_neg at hA hB
      exact ⟨by linarith, by linarith⟩

theorem floorIdx_lt {u : ℚ} (len : Nat) (h0 : 0 ≤ u) (h1 : u < 1)
    (hlen : 0 < len) : (⌊u * (len : ℚ)⌋).toNat < len := by
  have hfl : ⌊u * (len : ℚ)⌋ < (len : ℤ) := by
    rw [Int.floor_lt]
    push_cast
    nlinarith [show (0:ℚ) < (len : ℚ) from Nat.cast_pos.mpr hlen]
  have hf0 : (0:ℤ) ≤ ⌊u * (len : ℚ)⌋ := Int.floor_nonneg.mpr (by positivity)
  omega

theorem getD_mem_of_lt {α : Type} {l : List α} {i : Nat} (h : i < l.length)
    (d : α) : l.getD i d ∈ l := by
  rw [List.getD_eq_getElem?_getD, List.getElem?_eq_getElem h]
  exact List.getElem_mem h

theorem mkNeonLight_clamp (env : Env) (b : Building) (r : Rng)
    (hu : unifBounded env)
    (hparts : ∀ p ∈ b.parts, 0 ≤ p.size.x ∧ 0 ≤ p.size.y ∧ 0 ≤ p.size.z) :
    ∀ l, (mkNeonLight env b r).1 = some l →
      ∃ p ∈ b.parts, l.width ≤ 8/10 * hostWallWidth p l.face ∧
        l.height ≤ 8/10 * p.size.y := by
  intro l hl
  by_cases hb : b.parts = []
  · rw [mkNeonLight, if_pos hb] at hl
    cases hl
  · rw [mkNeonLight, if_neg hb] at hl
    dsimp only at hl
    rw [Option.some.injEq] at hl
    subst hl
    have hmem : b.parts.getD (⌊(draw env r).1 * (b.parts.length : ℚ)⌋).toNat
        dummyPart ∈ b.parts :=
      getD_mem_of_lt (floorIdx_lt b.parts.length ((hu _ _).1) ((hu _ _).2)
        (List.length_pos.mpr hb)) dummyPart
    obtain ⟨hpx, hpy, hpz⟩ := hparts _ hmem
    have hbase : (0:ℚ) <
        neonBaseSize ((draw env (draw env (draw env r).2).2).1)
          ((draw env (draw env (draw env (draw env r).2).2).2).1) :=
      neonBaseSize_pos _ _ ((hu _ _).1)
    have haspect : (0:ℚ) <
        1/2 + ((draw env (draw env (draw env (draw env (draw env r).2).2).2).2).1) * (3/2) := by
      have : (0:ℚ) ≤ ((draw env (draw env (draw env (draw env (draw env r).2).2).2).2).1) :=
        (hu _ _).1
      linarith
    refine ⟨b.parts.getD (⌊(draw env r).1 * (b.parts.length : ℚ)⌋).toNat dummyPart,
      hmem, ?_⟩
    dsimp only
    by_cases hs1 : (draw env (draw env r).2).1 < 1/4
    · have hs2 : (draw env (draw env r).2).1 < 1/2 := by linarith
      rw [if_pos hs1, if_pos hs2]
      have hface : hostWallWidth (b.parts.getD
          (⌊(draw env r).1 * (b.parts.length : ℚ)⌋).toNat dummyPart) 0 =
          (b.parts.getD (⌊(draw env r).1 * (b.parts.length : ℚ)⌋).toNat
            dummyPart).size.x := by
        rw [hostWallWidth, if_pos (by norm_num)]
      rw [hface]
      exact clampNeon_le _ _ _ _ hpx hpy (mul_pos hbase haspect) hbase
    · rw [if_neg hs1]
      by_cases hs2 : (draw env (draw env r).2).1 < 1/2
      · rw [if_pos hs2, if_pos hs2]
        have hface : hostWallWidth (b.parts.getD
            (⌊(draw env r).1 * (b.parts.length : ℚ)⌋).toNat dummyPart) 1 =
            (b.parts.getD (⌊(draw env r).1 * (b.parts.length : ℚ)⌋).toNat
              dummyPart).size.x := by
          rw [hostWallWidth, if_pos (by norm_num)]
        rw [hface]
        exact clampNeon_le _ _ _ _ hpx hpy (mul_pos hbase haspect) hbase
      · rw [if_neg hs2, if_neg hs2]
        by_cases hs3 : (draw env (draw env r).2).1 < 3/4
        · rw [if_pos hs3]
          have hface : hostWallWidth (b.parts.getD
              (⌊(draw env r).1 * (b.parts.length : ℚ)⌋).toNat dummyPart) 2 =
              (b.parts.getD (⌊(draw env r).1 * (b.parts.length : ℚ)⌋).toNat
                dummyPart).size.z := by
            rw [hostWallWidth, if_neg (by norm_num)]
          rw [hface]
          exact clampNeon_le _ _ _ _ hpz hpy (mul_pos hbase haspect) hbase
        · rw [if_neg hs3]
          have hface : hostWallWidth (b.parts.getD
              (⌊(draw env r).1 * (b.parts.length : ℚ)⌋).toNat dummyPart) 3 =
              (b.parts.getD (⌊(draw env r).1 * (b.parts.length : ℚ)⌋).toNat
                dummyPart).size.z := by
            rw [hostWallWidth, if_neg (by norm_num)]
          rw [hface]
          exact clampNeon_le _ _ _ _ hpz hpy (mul_pos hbase haspect) hbase

theorem neonLoop_clamp (env : Env) (b : Building)
    (hu : unifBounded env)
    (hparts : ∀ p ∈ b.parts, 0 ≤ p.size.x ∧ 0 ≤ p.size.y ∧ 0 ≤ p.size.z) :
    ∀ (n : Nat) (r : Rng), ∀ l ∈ (neonLoop env b n r).1,
      ∃ p ∈ b.parts, l.width ≤ 8/10 * hostWallWidth p l.face ∧
        l.height ≤ 8/10 * p.size.y := by
  intro n
  induction n with
  | zero =>
    intro r l hl
    simp [neonLoop] at hl
  | succ m ih =>
    intro r l hl
    rw [neonLoop] at hl
    dsimp only at hl
    cases hml : (mkNeonLight env b r).1 with
    | none =>
      rw [hml] at hl
      exact ih _ l hl
    | some l' =>
      rw [hml] at hl
      rcases List.mem_cons.mp hl with rfl | hl'
      · exact mkNeonLight_clamp env b r hu hparts l hml
      · exact ih _ l hl'

/-- C4: every NeonLight generated by `addNeonLights` satisfies the clamp
invariant: its width is at most 80% of the hosting wall's width and its
height at most 80% of the hosting wall's height, where the wall dimensions
come from the chosen part's sizes selected by the recorded face (x,y for
faces 0/1; z,y for faces 2/3). -/
theorem addNeonLights_clamp (env : Env) (b : Building) (r : Rng)
    (hu : unifBounded env)
    (hparts : ∀ p ∈ b.parts, 0 ≤ p.size.x ∧ 0 ≤ p.size.y ∧ 0 ≤ p.size.z) :
    ∀ l ∈ (addNeonLights env b r).1, ∃ p ∈ b.parts,
      l.width ≤ 8/10 * hostWallWidth p l.face ∧
      l.height ≤ 8/10 * p.size.y := by
  intro l hl
  exact neonLoop_clamp env b hu hparts _ _ l hl

/-- C4 (witness): the clamp theorem applied to the concrete environment and a
concrete one-part building. -/
theorem addNeonLights_clamp_witness :
    unifBounded constEnv ∧
    (∀ p ∈ cexBuilding.parts, 0 ≤ p.size.x ∧ 0 ≤ p.size.y ∧ 0 ≤ p.size.z) ∧
    ∀ l ∈ (addNeonLights constEnv cexBuilding ⟨0, 0⟩).1,
      ∃ p ∈ cexBuilding.parts,
        l.width ≤ 8/10 * hostWallWidth p l.face ∧
        l.height ≤ 8/10 * p.size.y :=
  ⟨fun _ _ => by norm_num [constEnv],
   by decide,
   addNeonLights_clamp constEnv cexBuilding ⟨0, 0⟩
     (fun _ _ => by norm_num [constEnv]) (by decide)⟩

/-! ### The cell loop appends records that depend only on the engine state -/

/-- The buildings and neon lights appended by one cell iteration of
`generateChunk`, and the advanced engine, as a function of the engine state
alone (`generateBuilding` reads no other state). -/
def chunkCellRun (env : Env) (cfg : Config) (cwx cwz : ℚ) (cell : Nat × Nat)
    (r : Rng) : List Building × List NeonLight × Rng :=
  let cellSize := cfg.chunkSize / 5
  if cell.1 = 2 ∧ cell.2 = 2 then
    let localX := ((cell.1 : ℚ) + 1/2) * cellSize
    let localZ := ((cell.2 : ℚ) + 1/2) * cellSize
    let br := mkBuilding env cfg ⟨cwx + localX, cwz + localZ⟩ r
    let lr := addNeonLights env br.1 br.2
    ([br.1], lr.1, lr.2)
  else
    let (u, r1) := draw env r
    if u > cfg.buildingDensity then ([], [], r1)
    else
      let (ux, r2) := draw env r1
      let (uz, r3) := draw env r2
      let localX := ((cell.1 : ℚ) + 1/2) * cellSize + (ux - 1/2) * cellSize * (3/10)
      let localZ := ((cell.2 : ℚ) + 1/2) * cellSize + (uz - 1/2) * cellSize * (3/10)
      let br := mkBuilding env cfg ⟨cwx + localX, cwz + localZ⟩ r3
      let lr := addNeonLights env br.1 br.2
      ([br.1], lr.1, lr.2)

/-- The buildings and neon lights appended by the whole cell loop, as a
function of the engine state alone. -/
def chunkCellsRun (env : Env) (cfg : Config) (cwx cwz : ℚ) :
    List (Nat × Nat) → Rng → List Building × List NeonLight × Rng
  | [], r => ([], [], r)
  | c :: cs, r =>
    let d := chunkCellRun env cfg cwx cwz c r
    let rest := chunkCellsRun env cfg cwx cwz cs d.2.2
    (d.1 ++ rest.1, d.2.1 ++ rest.2.1, rest.2.2)

theorem chunkCellStep_eq (env : Env) (cfg : Config) (cwx cwz : ℚ)
    (c : Nat × Nat) (s : GenState) :
    chunkCellStep env cfg cwx cwz c s =
      { s with
        buildings := s.buildings ++ (chunkCellRun env cfg cwx cwz c s.rng).1,
        neonLights := s.neonLights ++ (chunkCellRun env cfg cwx cwz c s.rng).2.1,
        rng := (chunkCellRun env cfg cwx cwz c s.rng).2.2 } := by
  unfold chunkCellStep chunkCellRun
  by_cases hc : c.1 = 2 ∧ c.2 = 2
  · simp only [if_pos hc]
    rfl
  · simp only [if_neg hc]
    by_cases hd : (draw env s.rng).1 > cfg.buildingDensity
    · simp only [if_pos hd]
      simp
    · simp only [if_neg hd]
      rfl

theorem chunkCellsFold_eq (env : Env) (cfg : Config) (cwx cwz : ℚ) :
    ∀ (L : List (Nat × Nat)) (s : GenState),
      chunkCellsFold env cfg cwx cwz L s =
        { s with
          buildings := s.buildings ++ (chunkCellsRun env cfg cwx cwz L s.rng).1,
          neonLights := s.neonLights ++ (chunkCellsRun env cfg cwx cwz L s.rng).2.1,
          rng := (chunkCellsRun env cfg cwx cwz L s.rng).2.2 } := by
  intro L
  induction L with
  | nil =>
    intro s
    simp [chunkCellsFold, chunkCellsRun]
  | cons c cs ih =>
    intro s
    rw [chunkCellsFold, chunkCellStep_eq, ih]
    simp only [chunkCellsRun]
    simp [List.append_assoc]

/-- C1 (amended): the Building and NeonLight records appended by a fresh
`generateChunk(x,z,seed)` call are bit-identical regardless of the prior state
of the generator (in particular regardless of which other chunks were
generated before); this does NOT hold for the LightVolume records, which
depend on the whole accumulated building set (see the counterexample). -/
theorem generateChunk_order_independent_buildings_neon (env : Env) (cfg : Config)
    (x z seed : Int) (s1 s2 : GenState)
    (h1 : mapLookup (x, z) s1.chunkData = none)
    (h2 : mapLookup (x, z) s2.chunkData = none) :
    (generateChunk env cfg x z seed s1).buildings.drop s1.buildings.length =
      (generateChunk env cfg x z seed s2).buildings.drop s2.buildings.length ∧
    (generateChunk env cfg x z seed s1).neonLights.drop s1.neonLights.length =
      (generateChunk env cfg x z seed s2).neonLights.drop s2.neonLights.length := by
  have key : ∀ s : GenState, mapLookup (x, z) s.chunkData = none →
      (generateChunk env cfg x z seed s).buildings =
        s.buildings ++ (chunkCellsRun env cfg ((x : ℚ) * cfg.chunkSize)
          ((z : ℚ) * cfg.chunkSize) chunkCells ⟨chunkSeedOf seed x z, 0⟩).1 ∧
      (generateChunk env cfg x z seed s).neonLights =
        s.neonLights ++ (chunkCellsRun env cfg ((x : ℚ) * cfg.chunkSize)
          ((z : ℚ) * cfg.chunkSize) chunkCells ⟨chunkSeedOf seed x z, 0⟩).2.1 := by
    intro s h
    rw [generateChunk_of_none env cfg x z seed s h]
    constructor
    · show (chunkFinalState env cfg x z seed s).buildings = _
      rw [chunkFinalState_buildings, chunkFoldState, chunkCellsFold_eq]
    · show (chunkFinalState env cfg x z seed s).neonLights = _
      rw [chunkFinalState_neonLights, chunkFoldState, chunkCellsFold_eq]
  constructor
  · rw [(key s1 h1).1, (key s2 h2).1, List.drop_left, List.drop_left]
  · rw [(key s1 h1).2, (key s2 h2).2, List.drop_left, List.drop_left]

/-- C1 (witness): the order-independence theorem applied to chunk (1,0) on a
generator that already generated chunk (0,0) versus a fresh generator. -/
theorem generateChunk_order_independent_buildings_neon_witness :
    mapLookup (1, 0) ordA0.chunkData = none ∧
    mapLookup (1, 0) initState.chunkData = none ∧
    ((generateChunk constEnv cexConfig 1 0 42 ordA0).buildings.drop
        ordA0.buildings.length =
      (generateChunk constEnv cexConfig 1 0 42 initState).buildings.drop
        initState.buildings.length ∧
    (generateChunk constEnv cexConfig 1 0 42 ordA0).neonLights.drop
        ordA0.neonLights.length =
      (generateChunk constEnv cexConfig 1 0 42 initState).neonLights.drop
        initState.neonLights.length) :=
  ⟨by decide, rfl,
   generateChunk_order_independent_buildings_neon constEnv cexConfig 1 0 42
     ordA0 initState (by decide) rfl⟩

/-- C1 (counterexample): the LightVolume records of chunk (1,0) are NOT
order-independent: generating (0,0) first changes them, because
`addCubeLightVolumes` samples inside the bounding rectangle of, and tests
clearance against, every building generated so far. -/
theorem generateChunk_lightVolumes_order_dependent :
    ¬ (ordA.lightVolumes.drop ordA0.lightVolumes.length =
        ordB.lightVolumes.drop initState.lightVolumes.length) := by
  decide

/-- C6: calling `generateChunk(x,z,seed)` a second time in a row on the same
generator is a no-op: the second call returns the state of the first call
unchanged (global arrays and Chunk Record map included). -/
theorem generateChunk_idempotent (env : Env) (cfg : Config) (x z seed : Int)
    (s : GenState) :
    generateChunk env cfg x z seed (generateChunk env cfg x z seed s) =
      generateChunk env cfg x z seed s := by
  cases h : mapLookup (x, z) s.chunkData with
  | some cd =>
    have hs : generateChunk env cfg x z seed s = s :=
      generateChunk_of_some env cfg x z seed s (by rw [h]; rfl)
    rw [hs]
    exact hs
  | none =>
    have key : mapLookup (x, z) (generateChunk env cfg x z seed s).chunkData =
        some (chunkRecordOf env cfg x z seed s) := by
      rw [generateChunk_chunkData_of_none env cfg x z seed s h]
      exact mapLookup_append_self h
    exact generateChunk_of_some env cfg x z seed _ (by rw [key]; rfl)

/-- C2 (amended): `generateChunk(x,z,seed)` followed immediately by
`removeChunk(x,z)` restores the Chunk Record map exactly, but does NOT restore
the global array lengths: the buildings generated for the chunk stay in the
global array, which is strictly longer than before. -/
theorem generateChunk_removeChunk_record_only (env : Env) (cfg : Config)
    (x z seed : Int) (s : GenState) (h : mapLookup (x, z) s.chunkData = none) :
    (removeChunk x z (generateChunk env cfg x z seed s)).chunkData = s.chunkData ∧
    s.buildings.length <
      (removeChunk x z (generateChunk env cfg x z seed s)).buildings.length := by
  constructor
  · show (generateChunk env cfg x z seed s).chunkData.filter _ = s.chunkData
    rw [generateChunk_chunkData_of_none env cfg x z seed s h]
    exact filter_append_key h
  · show s.buildings.length < (generateChunk env cfg x z seed s).buildings.length
    exact generateChunk_buildings_growth env cfg x z seed s h

/-- C2 (witness): the amended round-trip theorem applied to a fresh generator
at chunk (0,0). -/
theorem generateChunk_removeChunk_record_only_witness :
    mapLookup (0, 0) initState.chunkData = none ∧
    ((removeChunk 0 0 (generateChunk constEnv cexConfig 0 0 42 initState)).chunkData =
        initState.chunkData ∧
      initState.buildings.length <
        (removeChunk 0 0 (generateChunk constEnv cexConfig 0 0 42 initState)).buildings.length) :=
  ⟨rfl, generateChunk_removeChunk_record_only constEnv cexConfig 0 0 42 initState rfl⟩

/-- C2 (counterexample): on a fresh generator, generating chunk (0,0) and then
removing it leaves one building in the global array, whereas the array was
empty before: the global array lengths are not restored. -/
theorem removeChunk_does_not_restore_arrays :
    (removeChunk 0 0 ordA0).buildings.length = 1 ∧
    initState.buildings.length = 0 := by
  constructor
  · decide
  · rfl

/-- C3 (amended): `generateBuilding` does mutate global state: it appends the
assembled building to the global buildings array and the generated neon lights
to the global neon-lights array; the light-volumes array and the chunk map are
unchanged. -/
theorem generateBuilding_frame (env : Env) (cfg : Config) (pos : Vec2)
    (s : GenState) :
    (generateBuilding env cfg pos s).lightVolumes = s.lightVolumes ∧
    (generateBuilding env cfg pos s).chunkData = s.chunkData ∧
    (generateBuilding env cfg pos s).buildings =
      s.buildings ++ [(mkBuilding env cfg pos s.rng).1] ∧
    (generateBuilding env cfg pos s).neonLights =
      s.neonLights ++ (addNeonLights env (mkBuilding env cfg pos s.rng).1
        (mkBuilding env cfg pos s.rng).2).1 :=
  ⟨rfl, rfl, rfl, rfl⟩

/-- C3 (counterexample): a concrete `generateBuilding` call changes the global
buildings and neon-lights collections, refuting "do not mutate any global
state". -/
theorem generateBuilding_mutates_globals :
    ¬ ((generateBuilding constEnv cexConfig ⟨0, 0⟩ initState).buildings =
          initState.buildings ∧
       (generateBuilding constEnv cexConfig ⟨0, 0⟩ initState).neonLights =
          initState.neonLights) := by
  decide

/-- C7: a fresh `generateChunk` call always stores a Chunk Record whose
building index list is non-empty: the center grid cell's building is placed
unconditionally. -/
theorem generateChunk_center_building (env : Env) (cfg : Config) (x z seed : Int)
    (s : GenState) (h : mapLookup (x, z) s.chunkData = none) :
    ∃ cd, mapLookup (x, z) (generateChunk env cfg x z seed s).chunkData = some cd ∧
      cd.buildingIndices ≠ [] := by
  refine ⟨chunkRecordOf env cfg x z seed s, ?_, ?_⟩
  · rw [generateChunk_chunkData_of_none env cfg x z seed s h]
    exact mapLookup_append_self h
  · have hlt : s.buildings.length <
        (chunkFinalState env cfg x z seed s).buildings.length := by
      rw [chunkFinalState_buildings, chunkFoldState]
      have hc : (2, 2) ∈ chunkCells := by decide
      exact chunkCellsFold_center_lt env cfg ((x : ℚ) * cfg.chunkSize)
        ((z : ℚ) * cfg.chunkSize) chunkCells
        { s with rng := ⟨chunkSeedOf seed x z, 0⟩ } hc
    intro hnil
    have := congrArg List.length hnil
    rw [chunkRecordOf] at this
    simp only [List.length_range', List.length_nil] at this
    omega

/-- C7 (witness): the center-building theorem applied to a fresh generator at
chunk (0,0). -/
theorem generateChunk_center_building_witness :
    mapLookup (0, 0) initState.chunkData = none ∧
    ∃ cd, mapLookup (0, 0) (generateChunk constEnv cexConfig 0 0 42 initState).chunkData
        = some cd ∧ cd.buildingIndices ≠ [] :=
  ⟨rfl, generateChunk_center_building constEnv cexConfig 0 0 42 initState rfl⟩

/-! ### Bound on the cube-light rejection sampler -/

theorem cubeLoop_length_le (env : Env) (cfg : Config) (bs : List Building)
    (minB maxB : Vec2) :
    ∀ (n placed : Nat) (r : Rng) (vols : List LightVolume),
      (cubeLoop env cfg bs minB maxB n placed r vols).1.length ≤
        vols.length + min n (cfg.groundLightMaxCount - placed) := by
  intro n
  induction n with
  | zero => intro placed r vols; simp [cubeLoop]
  | succ m ih =>
    intro placed r vols
    simp only [cubeLoop]
    split
    · split
      · exact le_trans (ih placed _ vols) (by omega)
      · refine le_trans (ih (placed + 1) _ _) ?_
        rename_i hplaced _
        simp only [List.length_append, List.length_cons, List.length_nil]
        omega
    · simp

/-- C9: `addCubeLightVolumes` appends at most
`min groundLightAttempts groundLightMaxCount` light volumes — at most one per
attempt and never more than the configured maximum; the model is a total
function, so the attempt budget also bounds the work when every candidate
point is rejected. -/
theorem addCubeLightVolumes_bounded (env : Env) (cfg : Config) (s : GenState) :
    (addCubeLightVolumes env cfg s).lightVolumes.length ≤
      s.lightVolumes.length +
        min cfg.groundLightAttempts cfg.groundLightMaxCount := by
  unfold addCubeLightVolumes
  split
  · omega
  · have := cubeLoop_length_le env cfg s.buildings (cityBounds s.buildings).1
      (cityBounds s.buildings).2 cfg.groundLightAttempts 0 s.rng s.lightVolumes
    simpa using this

end CityGen
